import Mathlib

/-
Shallow embedding of foldflow/models/components/layers.py.

Tensors are modelled as lists (nested for higher rank) or as functions on Fin,
with real-number arithmetic in place of floating point.  Python exceptions are
modelled with Except String.  Random draws made by the initializers (orthogonal
matrices, truncated-normal samples) are passed in as explicit arguments,
constrained only by the support guarantees of the samplers that produce them.
Torch modules that the file merely calls (nn.Linear, nn.Dropout in evaluation
mode, TransformerEncoderLayer.__init__) are modelled by their documented
behaviour.
-/

/-! ## Python-level helpers (layers.py lines 374-385)

The module defines `exists`, `uniq` and `default`.  `default(val, d)` returns
`val` when it is not None; otherwise it evaluates `isfunction(d)`.  The name
`isfunction` is bound nowhere in the module (the upstream file imports it from
`inspect`; this copy dropped the import), so reaching that branch raises a
NameError at run time.  `defaultPy` models this: the None branch is the error
branch. -/

def nameErrorIsfunction : String := "NameError: name isfunction is not defined"

def defaultPy {α : Type} (val : Option α) (d : α) : Except String α :=
  match val, d with
  | some v, _ => Except.ok v
  | none, _ => Except.error nameErrorIsfunction

/-- Model of Python str.lower, used by Dense.__init__ on the activation name. -/
def pyLower (s : String) : String := ⟨s.data.map Char.toLower⟩

/-! ## he_orthogonal_init (layers.py lines 30-50)

After `torch.nn.init.orthogonal_` and `_standardize` (both of which produce a
random standardized matrix and are irrelevant to the final scaling step), the
function computes `fan_in` — `tensor.shape[:-1].numel()` for rank 3 and
`tensor.shape[1]` for every other rank — and multiplies every element by
`(1 / fan_in) ** 0.5` in place.  We model the flattened element list and the
shape separately. -/

def heFanIn (shape : List ℕ) : ℕ :=
  if shape.length = 3 then shape.dropLast.prod else shape.getD 1 0

noncomputable def heOrthogonalScale (shape : List ℕ) : ℝ :=
  Real.sqrt (1 / (heFanIn shape : ℝ))

/-- Final step of he_orthogonal_init: every element of the (standardized)
tensor is multiplied by `(1 / fan_in) ** 0.5`. -/
noncomputable def heOrthogonalFinalStep (shape : List ℕ) (t : List ℝ) : List ℝ :=
  t.map (fun v => v * heOrthogonalScale shape)

/-- Modelled from the spec for comparison: the fan-in the spec sentence
describes, the product of all dimensions of the tensor except the last. -/
def specFanInAllButLast (shape : List ℕ) : ℕ := shape.dropLast.prod

/-! ## _calculate_fan and trunc_normal_init_ (layers.py lines 251-277)

`_calculate_fan` reads `(fan_out, fan_in)` from the weight shape and selects
`fan_in`, `fan_out` or their arithmetic mean, raising ValueError otherwise.
`trunc_normal_init_` divides the scale by `max(1, f)`, sets
`std = sqrt(scale) / truncnorm.std(a=-2, b=2, loc=0, scale=1)` and draws
`prod(shape)` samples from `truncnorm(a=-2, b=2, loc=0, scale=std)`.  The
constant `truncnorm.std(a=-2, b=2, loc=0, scale=1)` — the standard deviation of
a standard truncated normal on [-2, 2] — is an external scipy value; it enters
the model as the parameter `σ₀`.  A scipy draw from
`truncnorm(a, b, loc=0, scale=std)` is `std * z` with `z` a standard truncated
normal sample, so `a ≤ z ≤ b`; the draws `zs` enter the model with that support
constraint as a hypothesis. -/

def calculateFan (shape : ℕ × ℕ) (fan : String) : Except String ℚ :=
  let fanOut : ℚ := shape.1
  let fanIn : ℚ := shape.2
  if fan = "fan_in" then Except.ok fanIn
  else if fan = "fan_out" then Except.ok fanOut
  else if fan = "fan_avg" then Except.ok ((fanIn + fanOut) / 2)
  else Except.error "ValueError: Invalid fan option"

noncomputable def truncNormalTargetStd (scale f σ₀ : ℝ) : ℝ :=
  Real.sqrt (scale / max 1 f) / σ₀

noncomputable def truncNormalSamples (std : ℝ) (zs : List ℝ) : List ℝ :=
  zs.map (fun z => z * std)

noncomputable def truncNormalInit (shape : ℕ × ℕ) (scale : ℝ) (fan : String)
    (σ₀ : ℝ) (zs : List ℝ) : Except String (List ℝ) := do
  let f ← calculateFan shape fan
  Except.ok (truncNormalSamples (truncNormalTargetStd scale (f : ℝ) σ₀) zs)

/-! ## Linear with nonstandard initializations (layers.py lines 280-371)

`Linear.__init__` zeroes the bias when one exists, then dispatches on the
`init` string.  The stochastic branches call external initializers
(truncated-normal via scipy, `xavier_uniform_`, `kaiming_normal_`); their
random outputs enter the model as the fields of `LinearInitDraws`.  The
deterministic branches (`gating`, `final`) fill the weight in place.  The
`init_fn` override is None here (the claims concern the named schemes). -/

structure LinearParams where
  weight : List (List ℝ)
  bias : Option (List ℝ)

structure LinearInitDraws where
  truncDraws : List ℝ
  glorotW : List (List ℝ)
  normalW : List (List ℝ)

/-- Model of Tensor.fill_ : every element replaced by the constant. -/
def fillAll (c : ℝ) (w : List (List ℝ)) : List (List ℝ) :=
  w.map (fun row => row.map (fun _ => c))

/-- Reshape of a flat sample list to (rows, cols), as np.reshape does before
weights.copy_. -/
def chunkRows (rows cols : ℕ) (l : List ℝ) : List (List ℝ) :=
  (List.range rows).map (fun r => (List.range cols).map (fun c => l.getD (r * cols + c) 0))

noncomputable def linearInit (inDim outDim : ℕ) (bias : Bool) (init : String)
    (w0 : List (List ℝ)) (b0 : List ℝ) (σ₀ : ℝ) (draws : LinearInitDraws) :
    Except String LinearParams :=
  let b1 := if bias then b0.map (fun _ => 0) else b0
  let some? : List ℝ → Option (List ℝ) := fun b => if bias then some b else none
  if init = "default" then
    (truncNormalInit (outDim, inDim) 1 "fan_in" σ₀ draws.truncDraws).map
      (fun ws => ⟨chunkRows outDim inDim ws, some? b1⟩)
  else if init = "relu" then
    (truncNormalInit (outDim, inDim) 2 "fan_in" σ₀ draws.truncDraws).map
      (fun ws => ⟨chunkRows outDim inDim ws, some? b1⟩)
  else if init = "glorot" then Except.ok ⟨draws.glorotW, some? b1⟩
  else if init = "gating" then
    Except.ok ⟨fillAll 0 w0, some? (b1.map (fun _ => 1))⟩
  else if init = "normal" then Except.ok ⟨draws.normalW, some? b1⟩
  else if init = "final" then Except.ok ⟨fillAll 0 w0, some? b1⟩
  else Except.error "ValueError: Invalid init string."

/-! ## ScaledSiLU and Dense (layers.py lines 53-106)

Dense wraps torch.nn.Linear (weight re-initialized by he_orthogonal_init and
bias zeroed by reset_parameters — the random weight enters the model as an
argument), then resolves the activation name: a string is lowercased and must
be "swish" or "silu" (ScaledSiLU), None gives the identity, anything else
raises NotImplementedError at construction time.  ScaledSiLU.forward is
`SiLU(x) * (1 / 0.6)` with `SiLU(x) = x * sigmoid(x) = x / (1 + exp(-x))`. -/

noncomputable def scaledSiLU (x : ℝ) : ℝ := (x / (1 + Real.exp (-x))) * (1 / 0.6)

inductive DenseActivation : Type
  | scaledSiLU : DenseActivation
  | identity : DenseActivation

noncomputable def applyDenseActivation : DenseActivation → ℝ → ℝ
  | DenseActivation.scaledSiLU, x => scaledSiLU x
  | DenseActivation.identity, x => x

def resolveDenseActivation (activation : Option String) :
    Except String DenseActivation :=
  match activation with
  | some s =>
      if pyLower s = "swish" ∨ pyLower s = "silu" then
        Except.ok DenseActivation.scaledSiLU
      else
        Except.error
          "NotImplementedError: Activation function not implemented for GemNet (yet)."
  | none => Except.ok DenseActivation.identity

structure DenseModel (inF outF : ℕ) where
  weight : Matrix (Fin outF) (Fin inF) ℝ
  bias : Option (Fin outF → ℝ)
  act : DenseActivation

/-- Model of Dense.__init__: the (he_orthogonal_init-randomized) weight is
given, the bias is zeroed by reset_parameters when present, and the activation
name is resolved — an unrecognized name is an error at construction time. -/
def denseInit {inF outF : ℕ} (weight : Matrix (Fin outF) (Fin inF) ℝ)
    (bias : Bool) (activation : Option String) :
    Except String (DenseModel inF outF) :=
  (resolveDenseActivation activation).map
    (fun a => ⟨weight, if bias then some (fun _ => 0) else none, a⟩)

noncomputable def denseForward {inF outF : ℕ} (m : DenseModel inF outF)
    (x : Fin inF → ℝ) : Fin outF → ℝ :=
  let y := m.weight.mulVec x + (m.bias.getD 0)
  fun j => applyDenseActivation m.act (y j)

/-- Model of Dense.forward as the source writes it: the body applies the
linear map and then the already-resolved activation — it has no error path. -/
noncomputable def denseForwardRun {inF outF : ℕ} (m : DenseModel inF outF)
    (x : Fin inF → ℝ) : Except String (Fin outF → ℝ) :=
  Except.ok (denseForward m x)

/-! ## ResidualLayer (layers.py lines 109-137 and its identical duplicate
lines 197-225)

The layer stacks nLayers Dense(units, units, bias=False) modules in a
Sequential and computes `(inputs + dense_mlp(inputs)) * (1 / sqrt 2)`. -/

noncomputable def invSqrt2 : ℝ := 1 / Real.sqrt 2

noncomputable def residualStack {u : ℕ} (layers : List (DenseModel u u))
    (x : Fin u → ℝ) : Fin u → ℝ :=
  layers.foldl (fun v d => denseForward d v) x

noncomputable def residualForward {u : ℕ} (layers : List (DenseModel u u))
    (inputs : Fin u → ℝ) : Fin u → ℝ :=
  fun j => (inputs j + residualStack layers inputs j) * invSqrt2

/-! ## EfficientInteractionDownProjection (layers.py lines 140-194)

Rank-3 tensors are nested lists.  forward takes
(rbf_env : (num_spherical, nEdges, num_radial), sph : (nEdges, Kmax,
num_spherical)), computes `torch.matmul(rbf_env, weight)` — a batched matrix
product over the leading num_spherical axis, contracting num_radial —
permutes the result by (1, 2, 0) and transposes the last two axes of sph.  No
bias and no activation appear anywhere in forward. -/

def dotL {K : Type} [NonUnitalNonAssocSemiring K] (a b : List K) : K :=
  (List.zipWith (fun x y => x * y) a b).sum

def matmul2 {K : Type} [NonUnitalNonAssocSemiring K] (A B : List (List K)) :
    List (List K) :=
  A.map (fun row =>
    (List.range (B.headD []).length).map
      (fun i => dotL row (B.map (fun br => br.getD i 0))))

def matmul3 {K : Type} [NonUnitalNonAssocSemiring K]
    (X W : List (List (List K))) : List (List (List K)) :=
  List.zipWith matmul2 X W

/-- Entry of a rank-3 list tensor, with 0 as the out-of-range default. -/
def entry3 {K : Type} [Zero K] (t : List (List (List K))) (a b c : ℕ) : K :=
  ((t.getD a []).getD b []).getD c 0

/-- torch.Tensor.permute(1, 2, 0) on a rank-3 tensor. -/
def permute120 {K : Type} [Zero K] (t : List (List (List K))) :
    List (List (List K)) :=
  let d0 := t.length
  let d1 := (t.headD []).length
  let d2 := ((t.headD []).headD []).length
  (List.range d1).map (fun e =>
    (List.range d2).map (fun i =>
      (List.range d0).map (fun s => entry3 t s e i)))

/-- torch.transpose(sph, 1, 2): the last two axes of every batch matrix are
swapped. -/
def transpose12 {K : Type} [Zero K] (t : List (List (List K))) :
    List (List (List K)) :=
  t.map (fun M =>
    (List.range (M.headD []).length).map (fun j => M.map (fun row => row.getD j 0)))

def effDownProjForward {K : Type} [NonUnitalNonAssocSemiring K]
    (weight : List (List (List K))) (rbfEnv sph : List (List (List K))) :
    List (List (List K)) × List (List (List K)) :=
  (permute120 (matmul3 rbfEnv weight), transpose12 sph)

/-! ## CrossAttention (layers.py lines 390-430)

The constructor computes inner_dim = dim_head * heads, resolves
`context_dim = default(context_dim, query_dim)` (through the broken
`default`), sets scale = dim_head ** -0.5 and builds bias-free projections
to_q : query_dim → inner_dim and to_k, to_v : context_dim → inner_dim, plus
to_out = Linear(inner_dim, query_dim) (with bias) followed by Dropout.
The model records the in/out feature sizes of each projection.

forward (modelled for a single batch element, the batch axis playing no role
in the claims): q = to_q(x); context = default(context, x); k = to_k(context);
v = to_v(context); the projections are split into per-head slices of width
dim_head; sim[i][j] = dot(q_i, k_j) * scale; with a boolean mask the entries
of sim at mask == False positions are replaced in place by
`-torch.finfo(sim.dtype).max` — the most negative finite value of the float
dtype, a finite constant that enters the real-valued model as the parameter
maxNeg; softmax is taken along the context axis; the result is contracted
with v, the heads are concatenated, and to_out (with bias, dropout in
evaluation mode being the identity) gives the output. -/

structure CrossAttentionCfg where
  queryDim : ℕ
  contextDim : ℕ
  heads : ℕ
  dimHead : ℕ
  scale : ℝ
  toQIn : ℕ
  toKIn : ℕ
  toVIn : ℕ
  toOutIn : ℕ
  toOutOut : ℕ

noncomputable def crossAttentionInit (queryDim : ℕ) (contextDim : Option ℕ)
    (heads dimHead : ℕ) (dropout : ℝ) : Except String CrossAttentionCfg :=
  let innerDim := dimHead * heads
  (defaultPy contextDim queryDim).map
    (fun cd =>
      ⟨queryDim, cd, heads, dimHead, (dimHead : ℝ) ^ (-(1 : ℝ) / 2),
        queryDim, cd, cd, innerDim, queryDim⟩)

structure CrossAttentionWeights where
  wq : List (List ℝ)
  wk : List (List ℝ)
  wv : List (List ℝ)
  wo : List (List ℝ)
  bo : List ℝ

/-- Bias-free nn.Linear on one feature vector: rows of the weight dotted with
the input. -/
def linearNoBias {K : Type} [NonUnitalNonAssocSemiring K]
    (W : List (List K)) (x : List K) : List K :=
  W.map (fun row => dotL row x)

/-- Per-head slice of width d for head t, as the rearrange
b n (h d) -> (b h) n d reads the feature axis. -/
def headSlice {K : Type} (d t : ℕ) (v : List K) : List K :=
  (v.drop (t * d)).take d

/-- sim.masked_fill_(~mask, max_neg_value) on one similarity row: entries
whose mask is False are replaced by the finite constant maxNeg. -/
def maskedFillRow (maxNeg : ℝ) (simRow : List ℝ) (maskRow : List Bool) :
    List ℝ :=
  List.zipWith (fun s m => if m then s else maxNeg) simRow maskRow

noncomputable def softmaxRow (xs : List ℝ) : List ℝ :=
  xs.map (fun x => Real.exp x / (xs.map Real.exp).sum)

/-- One row of the attention weights: the optional mask fill followed by
softmax along the context axis, exactly as forward applies them to each row
of sim. -/
noncomputable def attnRow (maxNeg : ℝ) (mask : Option (List Bool))
    (simRow : List ℝ) : List ℝ :=
  softmaxRow
    (match mask with
     | some m => maskedFillRow maxNeg simRow m
     | none => simRow)

noncomputable def crossAttentionForward (cfg : CrossAttentionCfg)
    (W : CrossAttentionWeights) (maxNeg : ℝ) (x : List (List ℝ))
    (context : Option (List (List ℝ))) (mask : Option (List Bool)) :
    Except String (List (List ℝ)) := do
  let h := cfg.heads
  let d := cfg.dimHead
  let q := x.map (linearNoBias W.wq)
  let ctx ← defaultPy context x
  let k := ctx.map (linearNoBias W.wk)
  let v := ctx.map (linearNoBias W.wv)
  let outHead : ℕ → ℕ → List ℝ := fun t i =>
    let qi := headSlice d t (q.getD i [])
    let simRow :=
      (List.range ctx.length).map
        (fun j => dotL qi (headSlice d t (k.getD j [])) * cfg.scale)
    let attn := attnRow maxNeg mask simRow
    (List.range d).map
      (fun c =>
        ((List.range ctx.length).map
          (fun j => attn.getD j 0 * (headSlice d t (v.getD j [])).getD c 0)).sum)
  let merged :=
    (List.range x.length).map (fun i => ((List.range h).map (fun t => outHead t i)).flatten)
  Except.ok
    (merged.map (fun row => List.zipWith (fun a b => a + b) (linearNoBias W.wo row) W.bo))

/-! ## CrossAttentionTransformerEncoderLayer (layers.py lines 434-455)

Its __init__ first calls the torch TransformerEncoderLayer constructor
(external, modelled as succeeding), then builds
`CrossAttention(d_model, nhead, dropout=dropout)` — nhead lands in the
context_dim slot, heads and dim_head keep their defaults 8 and 64 — and then
evaluates `_get_activation_fn(activation)`, a name that is neither defined in
the module nor imported, so every construction that reaches that line raises
NameError.  The layer norms, dropouts and flag assignments after that line are
never executed. -/

def nameErrorGetActivationFn : String :=
  "NameError: name _get_activation_fn is not defined"

structure EncoderLayerModel where
  attn : CrossAttentionCfg

/-- The CrossAttention construction performed by
CrossAttentionTransformerEncoderLayer.__init__: nhead is the second
positional argument, hence the context_dim. -/
noncomputable def encoderAttn (dModel nhead : ℕ) (dropout : ℝ) :
    Except String CrossAttentionCfg :=
  crossAttentionInit dModel (some nhead) 8 64 dropout

/-- Evaluation of the unbound name `_get_activation_fn`: a NameError for every
argument. -/
def getActivationFnMissing (activation : String) : Except String (ℝ → ℝ) :=
  Except.error nameErrorGetActivationFn

noncomputable def crossAttentionTransformerEncoderLayerInit
    (dModel nhead dimFeedforward : ℕ) (dropout : ℝ) (activation : String) :
    Except String EncoderLayerModel := do
  let attn ← encoderAttn dModel nhead dropout
  let _actFn ← getActivationFnMissing activation
  Except.ok ⟨attn⟩

/-! ## Shared helper lemmas -/

lemma getD_range_map {β : Type} (f : ℕ → β) (n i : ℕ) (h : i < n) (d : β) :
    ((List.range n).map f).getD i d = f i := by
  simp [List.getD_eq_getElem?_getD, List.getElem?_map, List.getElem?_range, h]

lemma getD_map_of_lt {α β : Type} (f : α → β) (l : List α) (i : ℕ)
    (h : i < l.length) (d : β) (d₀ : α) :
    (l.map f).getD i d = f (l.getD i d₀) := by
  simp [List.getD_eq_getElem?_getD, List.getElem?_map,
    List.getElem?_eq_getElem h, List.getD_eq_getElem l d₀ h]

lemma list_sum_map_div (l : List ℝ) (f : ℝ → ℝ) (c : ℝ) :
    (l.map (fun x => f x / c)).sum = (l.map f).sum / c := by
  induction l with
  | nil => simp
  | cons a t ih => simp [ih, add_div]

lemma softmaxRow_sum_one (xs : List ℝ) (h : xs ≠ []) :
    (softmaxRow xs).sum = 1 := by
  have hpos : 0 < (xs.map Real.exp).sum :=
    List.sum_pos _ (by
      intro y hy
      obtain ⟨x, _, rfl⟩ := List.mem_map.mp hy
      exact Real.exp_pos x) (by simpa using h)
  unfold softmaxRow
  rw [list_sum_map_div]
  exact div_self (ne_of_gt hpos)

lemma softmaxRow_mem_pos_le_one (xs : List ℝ) (h : xs ≠ []) :
    ∀ y ∈ softmaxRow xs, 0 < y ∧ y ≤ 1 := by
  have hpos : 0 < (xs.map Real.exp).sum :=
    List.sum_pos _ (by
      intro y hy
      obtain ⟨x, _, rfl⟩ := List.mem_map.mp hy
      exact Real.exp_pos x) (by simpa using h)
  intro y hy
  obtain ⟨x, hx, rfl⟩ := List.mem_map.mp hy
  constructor
  · exact div_pos (Real.exp_pos x) hpos
  · rw [div_le_one hpos]
    exact List.single_le_sum
      (by
        intro b hb
        obtain ⟨a, _, rfl⟩ := List.mem_map.mp hb
        exact (Real.exp_pos a).le)
      _ (List.mem_map.mpr ⟨x, hx, rfl⟩)

/-! ## C3: the fan-in used by he_orthogonal_init's final scaling -/

/-- C3 counterexample: for the rank-2 shape (2, 3) the code scales by
sqrt(1 / 3) — fan_in is tensor.shape[1], the LAST dimension — while the claim
says the factor is sqrt(1 / fan_in) with fan_in the product of all dimensions
except the last, here 2.  The two scalings differ on the one-element
tensor [1]. -/
theorem heOrthogonalInit_rank2_fan_counterexample :
    heFanIn [2, 3] = 3 ∧ specFanInAllButLast [2, 3] = 2 ∧
      heOrthogonalFinalStep [2, 3] [1] ≠
        [1 * Real.sqrt (1 / (specFanInAllButLast [2, 3] : ℝ))] := by
  refine ⟨by decide, by decide, ?_⟩
  intro hEq
  have h1 : Real.sqrt (1 / 3) = Real.sqrt (1 / 2) := by
    have := List.head_eq_of_cons_eq hEq
    simpa [heOrthogonalFinalStep, heOrthogonalScale, heFanIn,
      specFanInAllButLast] using this
  have h2 : Real.sqrt (1 / 3) < Real.sqrt (1 / 2) :=
    Real.sqrt_lt_sqrt (by norm_num) (by norm_num)
  exact absurd h1 (ne_of_lt h2)

/-- C3 amended: he_orthogonal_init's final step multiplies every element by
sqrt(1 / fan_in), where for a rank-3 tensor shaped (d0, d1, fan_out) the
fan_in is the product d0 * d1 of all dimensions except the last, and for a
rank-2 tensor shaped (fan_out, fan_in) it is the second (last) dimension
fan_in — not the product of all dimensions except the last. -/
theorem heOrthogonalInit_scales_by_fan_in :
    (∀ (fanOut fanIn : ℕ) (t : List ℝ),
        heOrthogonalFinalStep [fanOut, fanIn] t =
          t.map (fun v => v * Real.sqrt (1 / (fanIn : ℝ)))) ∧
      (∀ (d0 d1 d2 : ℕ) (t : List ℝ),
        heOrthogonalFinalStep [d0, d1, d2] t =
          t.map (fun v => v * Real.sqrt (1 / ((d0 * d1 : ℕ) : ℝ)))) := by
  constructor
  · intro fanOut fanIn t
    simp [heOrthogonalFinalStep, heOrthogonalScale, heFanIn]
  · intro d0 d1 d2 t
    simp [heOrthogonalFinalStep, heOrthogonalScale, heFanIn]

/-! ## C9: gating initialization of Linear -/

/-- C9: for every Linear constructed with init = "gating" and bias = True,
whatever the shape (the entries of w0 and b0 are the tensors torch.nn.Linear
allocated), construction succeeds, every weight entry is 0, and every bias
entry is 1. -/
theorem linear_gating_init_weight_zero_bias_one
    (inDim outDim : ℕ) (w0 : List (List ℝ)) (b0 : List ℝ) (σ₀ : ℝ)
    (draws : LinearInitDraws) :
    ∃ p : LinearParams,
      linearInit inDim outDim true "gating" w0 b0 σ₀ draws = Except.ok p ∧
        (∀ row ∈ p.weight, ∀ x ∈ row, x = 0) ∧
        ∃ bv : List ℝ, p.bias = some bv ∧ ∀ x ∈ bv, x = 1 := by
  refine ⟨⟨fillAll 0 w0, some ((b0.map (fun _ => 0)).map (fun _ => 1))⟩, ?_, ?_, ?_⟩
  · simp [linearInit]
  · intro row hrow x hx
    simp only [fillAll, List.mem_map] at hrow
    obtain ⟨r, _, rfl⟩ := hrow
    simp only [List.mem_map] at hx
    obtain ⟨y, _, rfl⟩ := hx
    rfl
  · refine ⟨_, rfl, ?_⟩
    intro x hx
    simp only [List.mem_map] at hx
    obtain ⟨y, _, rfl⟩ := hx
    rfl

/-! ## C4: truncated-normal initialization target std and sample bounds -/

/-- C4: trunc_normal_init_ uses the target standard deviation
sqrt(scale / max(1, f)) / σ₀ — σ₀ being the standard deviation of a standard
truncated normal on [-2, 2] — and, since every standard truncated-normal draw
z satisfies |z| ≤ 2, every sample written into the weight lies within the
truncation bounds ±2 scaled by that target standard deviation. -/
theorem truncNormalInit_target_std_and_bounds
    (shape : ℕ × ℕ) (scale : ℝ) (fan : String) (σ₀ : ℝ) (zs : List ℝ) (f : ℚ)
    (hf : calculateFan shape fan = Except.ok f) (hσ : 0 < σ₀)
    (hz : ∀ z ∈ zs, |z| ≤ 2) :
    truncNormalInit shape scale fan σ₀ zs =
      Except.ok (truncNormalSamples (truncNormalTargetStd scale (f : ℝ) σ₀) zs) ∧
      ∀ w ∈ truncNormalSamples (truncNormalTargetStd scale (f : ℝ) σ₀) zs,
        |w| ≤ 2 * truncNormalTargetStd scale (f : ℝ) σ₀ := by
  have hstd : 0 ≤ truncNormalTargetStd scale (f : ℝ) σ₀ :=
    div_nonneg (Real.sqrt_nonneg _) hσ.le
  constructor
  · unfold truncNormalInit
    rw [hf]
    rfl
  · intro w hw
    unfold truncNormalSamples at hw
    obtain ⟨z, hzmem, rfl⟩ := List.mem_map.mp hw
    rw [abs_mul, abs_of_nonneg hstd]
    exact mul_le_mul_of_nonneg_right (hz z hzmem) hstd

/-- C4 witness: scale 1.0, fan mode fan_in, shape (128, 64), σ₀ = 1, draws
2, -2 and 1/2. -/
theorem truncNormalInit_target_std_and_bounds_witness :
    calculateFan (128, 64) "fan_in" = Except.ok 64 ∧ (0 : ℝ) < 1 ∧
      (∀ z ∈ [(2 : ℝ), -2, 1 / 2], |z| ≤ 2) ∧
      (truncNormalInit (128, 64) 1 "fan_in" 1 [(2 : ℝ), -2, 1 / 2] =
          Except.ok (truncNormalSamples
            (truncNormalTargetStd 1 ((64 : ℚ) : ℝ) 1) [(2 : ℝ), -2, 1 / 2]) ∧
        ∀ w ∈ truncNormalSamples (truncNormalTargetStd 1 ((64 : ℚ) : ℝ) 1)
            [(2 : ℝ), -2, 1 / 2],
          |w| ≤ 2 * truncNormalTargetStd 1 ((64 : ℚ) : ℝ) 1) :=
  ⟨by norm_num [calculateFan], by norm_num,
    by
      intro z hz
      rcases List.mem_cons.mp hz with rfl | hz
      · rw [abs_of_nonneg] <;> norm_num
      rcases List.mem_cons.mp hz with rfl | hz
      · rw [abs_of_nonpos] <;> norm_num
      rcases List.mem_cons.mp hz with rfl | hz
      · rw [abs_of_nonneg] <;> norm_num
      · exact absurd hz (List.not_mem_nil _),
    truncNormalInit_target_std_and_bounds (128, 64) 1 "fan_in" 1
      [(2 : ℝ), -2, 1 / 2] 64 (by norm_num [calculateFan]) (by norm_num)
      (by
        intro z hz
        rcases List.mem_cons.mp hz with rfl | hz
        · rw [abs_of_nonneg] <;> norm_num
        rcases List.mem_cons.mp hz with rfl | hz
        · rw [abs_of_nonpos] <;> norm_num
        rcases List.mem_cons.mp hz with rfl | hz
        · rw [abs_of_nonneg] <;> norm_num
        · exact absurd hz (List.not_mem_nil _))⟩

/-! ## C5: masked similarity entries are finite; fully masked rows stay
well behaved under softmax -/

lemma maskedFillRow_all_false (maxNeg : ℝ) :
    ∀ (simRow : List ℝ) (maskRow : List Bool),
      maskRow.length = simRow.length → (∀ m ∈ maskRow, m = false) →
      maskedFillRow maxNeg simRow maskRow =
        List.replicate simRow.length maxNeg := by
  intro simRow
  induction simRow with
  | nil => intro maskRow _ _; simp [maskedFillRow]
  | cons a t ih =>
    intro maskRow hlen hm
    cases maskRow with
    | nil => simp at hlen
    | cons b bs =>
      have hb : b = false := hm b (by simp)
      subst hb
      have hlen2 : bs.length = t.length := by simpa using hlen
      have := ih bs hlen2 (fun m hm2 => hm m (by simp [hm2]))
      simp [maskedFillRow, List.replicate] at this ⊢
      exact this

/-- C5: in CrossAttention.forward with a boolean mask, every masked-out
similarity entry of a row is replaced by the finite value maxNeg =
`-torch.finfo(sim.dtype).max` (a real number, never an infinity), so for a row
all of whose context positions are masked out, every similarity entry becomes
that finite constant and the softmax of the row is a list of well-defined real
numbers, each in (0, 1], that sums to 1 over the context axis. -/
theorem crossAttention_fully_masked_row_softmax
    (maxNeg : ℝ) (simRow : List ℝ) (maskRow : List Bool)
    (hne : simRow ≠ []) (hlen : maskRow.length = simRow.length)
    (hmask : ∀ m ∈ maskRow, m = false) :
    maskedFillRow maxNeg simRow maskRow =
        List.replicate simRow.length maxNeg ∧
      (attnRow maxNeg (some maskRow) simRow).sum = 1 ∧
      ∀ y ∈ attnRow maxNeg (some maskRow) simRow, 0 < y ∧ y ≤ 1 := by
  have hfill := maskedFillRow_all_false maxNeg simRow maskRow hlen hmask
  have hrep : List.replicate simRow.length maxNeg ≠ [] := by
    intro h
    have : simRow.length = 0 := by
      simpa using congrArg List.length h
    exact hne (List.eq_nil_of_length_eq_zero this)
  have hforms : attnRow maxNeg (some maskRow) simRow =
      softmaxRow (List.replicate simRow.length maxNeg) := by
    have h0 : attnRow maxNeg (some maskRow) simRow =
        softmaxRow (maskedFillRow maxNeg simRow maskRow) := rfl
    rw [h0, hfill]
  refine ⟨hfill, ?_, ?_⟩
  · rw [hforms]
    exact softmaxRow_sum_one _ hrep
  · rw [hforms]
    exact softmaxRow_mem_pos_le_one _ hrep

/-- C5 witness: a two-entry similarity row whose mask is False everywhere. -/
theorem crossAttention_fully_masked_row_softmax_witness :
    ([(0 : ℝ), 3] ≠ [] ∧ [false, false].length = [(0 : ℝ), 3].length ∧
        (∀ m ∈ [false, false], m = false)) ∧
      (maskedFillRow (-1000) [(0 : ℝ), 3] [false, false] =
          List.replicate [(0 : ℝ), 3].length (-1000) ∧
        (attnRow (-1000) (some [false, false]) [(0 : ℝ), 3]).sum = 1 ∧
        ∀ y ∈ attnRow (-1000) (some [false, false]) [(0 : ℝ), 3],
          0 < y ∧ y ≤ 1) :=
  ⟨⟨by simp, by simp, by simp⟩,
    crossAttention_fully_masked_row_softmax (-1000) [(0 : ℝ), 3] [false, false]
      (by simp) (by simp) (by simp)⟩

/-! ## C6: ResidualLayer forward -/

lemma applyDenseActivation_zero (a : DenseActivation) :
    applyDenseActivation a 0 = 0 := by
  cases a <;> simp [applyDenseActivation, scaledSiLU]

lemma denseForward_zero_weight {u : ℕ} (d : DenseModel u u)
    (hw : d.weight = 0) (hb : d.bias = none) (v : Fin u → ℝ) :
    denseForward d v = 0 := by
  funext j
  have h0 : (d.weight.mulVec v + d.bias.getD 0) j = 0 := by
    rw [hw, hb]
    simp [Matrix.zero_mulVec]
  unfold denseForward
  simp only [h0, applyDenseActivation_zero]
  rfl

lemma residualStack_zero_of_zero_weights {u : ℕ} :
    ∀ (layers : List (DenseModel u u)),
      (∀ d ∈ layers, d.weight = 0 ∧ d.bias = none) →
      residualStack layers (0 : Fin u → ℝ) = 0 := by
  intro layers
  induction layers with
  | nil => intro _; rfl
  | cons d rest ih =>
    intro hz
    have hd := hz d (by simp)
    have h0 : residualStack (d :: rest) (0 : Fin u → ℝ) =
        residualStack rest (denseForward d 0) := rfl
    rw [h0, denseForward_zero_weight d hd.1 hd.2]
    exact ih (fun e he => hz e (by simp [he]))

/-- C6 counterexample: a ResidualLayer built with nLayers = 0 has an empty
Sequential stack, so `stack(input) = input` and forward(input) =
2 * input * (1/sqrt 2), not input * (1/sqrt 2); yet every internal Dense
weight of the empty stack is (vacuously) zero and bias-free, so the claim as
stated fails on it.  Shown at units = 1 on the input (1). -/
theorem residualLayer_empty_stack_counterexample :
    (∀ d ∈ ([] : List (DenseModel 1 1)), d.weight = 0 ∧ d.bias = none) ∧
      residualForward ([] : List (DenseModel 1 1)) (fun _ => 1) ≠
        (fun j => (fun _ : Fin 1 => (1 : ℝ)) j * invSqrt2) := by
  refine ⟨by simp, ?_⟩
  intro h
  have h0 := congrFun h 0
  have h1 : ((1 : ℝ) + 1) * invSqrt2 = 1 * invSqrt2 := h0
  have hs : invSqrt2 ≠ 0 := by
    unfold invSqrt2
    have : (0 : ℝ) < Real.sqrt 2 := Real.sqrt_pos.mpr (by norm_num)
    positivity
  have h2 : (1 : ℝ) + 1 = 1 := mul_right_cancel₀ hs h1
  norm_num at h2

/-- C6 amended: for every ResidualLayer, forward(input) =
(input + stack(input)) * (1/sqrt 2) where stack is the sequential application
of its internal Dense layers; and when the stack holds at least one Dense
layer and every internal Dense weight is zero (with no biases), forward(input)
equals input * (1/sqrt 2) exactly, for every input. -/
theorem residualLayer_forward_formula_and_zero_stack {u : ℕ}
    (layers : List (DenseModel u u)) (inputs : Fin u → ℝ)
    (hne : layers ≠ [])
    (hzero : ∀ d ∈ layers, d.weight = 0 ∧ d.bias = none) :
    residualForward layers inputs =
        (fun j => (inputs j + residualStack layers inputs j) * invSqrt2) ∧
      residualForward layers inputs = fun j => inputs j * invSqrt2 := by
  have hstack : residualStack layers inputs = 0 := by
    cases layers with
    | nil => exact absurd rfl hne
    | cons d rest =>
      have hd := hzero d (by simp)
      have h0 : residualStack (d :: rest) inputs =
          residualStack rest (denseForward d inputs) := rfl
      rw [h0, denseForward_zero_weight d hd.1 hd.2]
      exact residualStack_zero_of_zero_weights rest
        (fun e he => hzero e (by simp [he]))
  refine ⟨rfl, ?_⟩
  funext j
  unfold residualForward
  rw [hstack]
  simp

/-- C6 witness: two zero-weight bias-free Dense layers at units = 1, on the
input (2). -/
theorem residualLayer_zero_stack_witness :
    (([⟨0, none, DenseActivation.identity⟩, ⟨0, none, DenseActivation.identity⟩] :
          List (DenseModel 1 1)) ≠ [] ∧
        ∀ d ∈ ([⟨0, none, DenseActivation.identity⟩,
            ⟨0, none, DenseActivation.identity⟩] : List (DenseModel 1 1)),
          d.weight = 0 ∧ d.bias = none) ∧
      residualForward
          ([⟨0, none, DenseActivation.identity⟩,
            ⟨0, none, DenseActivation.identity⟩] : List (DenseModel 1 1))
          (fun _ => 2) = fun j => (fun _ : Fin 1 => (2 : ℝ)) j * invSqrt2 :=
  ⟨⟨by simp, by intro d hd; fin_cases hd <;> exact ⟨rfl, rfl⟩⟩,
    (residualLayer_forward_formula_and_zero_stack
      ([⟨0, none, DenseActivation.identity⟩,
        ⟨0, none, DenseActivation.identity⟩] : List (DenseModel 1 1))
      (fun _ => 2) (by simp)
      (by intro d hd; fin_cases hd <;> exact ⟨rfl, rfl⟩)).2⟩

/-! ## C7: EfficientInteractionDownProjection output shapes -/

/-- Exact rectangular shape of a rank-3 list tensor. -/
def tensor3HasShape {K : Type} (t : List (List (List K))) (a b c : ℕ) : Prop :=
  t.length = a ∧ ∀ m ∈ t, m.length = b ∧ ∀ r ∈ m, r.length = c

lemma tensor3HasShape_replicate {K : Type} (a b c : ℕ) (x : K) :
    tensor3HasShape (List.replicate a (List.replicate b (List.replicate c x)))
      a b c := by
  refine ⟨by simp, ?_⟩
  intro m hm
  rw [List.eq_of_mem_replicate hm]
  refine ⟨by simp, ?_⟩
  intro r hr
  rw [List.eq_of_mem_replicate hr]
  simp

lemma permute120_shape {K : Type} [Zero K] (t : List (List (List K)))
    (a b c : ℕ) (h0 : t.length = a) (h1 : (t.headD []).length = b)
    (h2 : ((t.headD []).headD []).length = c) :
    tensor3HasShape (permute120 t) b c a := by
  simp only [permute120]
  rw [h0, h1, h2]
  refine ⟨by simp, ?_⟩
  intro m hm
  obtain ⟨e, _, rfl⟩ := List.mem_map.mp hm
  refine ⟨by simp, ?_⟩
  intro r hr
  obtain ⟨i, _, rfl⟩ := List.mem_map.mp hr
  simp

lemma transpose12_shape {K : Type} [Zero K] (t : List (List (List K)))
    (a b c : ℕ) (hb : 0 < b) (h : tensor3HasShape t a b c) :
    tensor3HasShape (transpose12 t) a c b := by
  refine ⟨by simp [transpose12, h.1], ?_⟩
  intro m hm
  obtain ⟨M, hM, rfl⟩ := List.mem_map.mp hm
  have hMs := h.2 M hM
  have hMne : M ≠ [] := by
    intro hnil
    rw [hnil] at hMs
    simp at hMs
    omega
  obtain ⟨m0, mtl, hMe⟩ := List.exists_cons_of_ne_nil hMne
  have hm0 : m0.length = c := hMs.2 m0 (by rw [hMe]; simp)
  constructor
  · rw [hMe]
    simp [hm0]
  · intro r hr
    obtain ⟨j, _, rfl⟩ := List.mem_map.mp hr
    simp [hMs.1]

lemma transpose12_entry {K : Type} [Zero K] (t : List (List (List K)))
    (a b c : ℕ) (h : tensor3HasShape t a b c) (e k s : ℕ)
    (he : e < a) (hk : k < b) (hs : s < c) :
    entry3 (transpose12 t) e s k = entry3 t e k s := by
  unfold entry3 transpose12
  have hlt : e < t.length := h.1 ▸ he
  rw [getD_map_of_lt _ t e hlt [] []]
  have hMmem : t.getD e [] ∈ t := by
    rw [List.getD_eq_getElem t [] hlt]
    exact List.getElem_mem hlt
  have hMs := h.2 _ hMmem
  have hMne : t.getD e [] ≠ [] := by
    intro hnil
    rw [hnil] at hMs
    simp at hMs
    omega
  obtain ⟨m0, mtl, hMe⟩ := List.exists_cons_of_ne_nil hMne
  have hhead : ((t.getD e []).headD []).length = c := by
    rw [hMe]
    exact hMs.2 m0 (by rw [hMe]; simp)
  rw [getD_range_map _ _ s (by rw [hhead]; exact hs) []]
  rw [getD_map_of_lt _ (t.getD e []) k (by rw [hMs.1]; exact hk) 0 []]

/-- C7: for every EfficientInteractionDownProjection with weight shape
(num_spherical, num_radial, emb_size_interm) and inputs of shapes
(num_spherical, num_edges, num_radial) and (num_edges, k_max, num_spherical),
forward returns tensors shaped exactly (num_edges, emb_size_interm,
num_spherical) and (num_edges, num_spherical, k_max), the second being the
spherical input with its last two axes transposed; the forward body applies
no activation and no bias. -/
theorem effDownProj_output_shapes {K : Type} [NonUnitalNonAssocSemiring K]
    (S E R I Kmax : ℕ) (hS : 0 < S) (hE : 0 < E) (hR : 0 < R) (hK : 0 < Kmax)
    (weight rbfEnv sph : List (List (List K)))
    (hw : tensor3HasShape weight S R I)
    (hrbf : tensor3HasShape rbfEnv S E R)
    (hsph : tensor3HasShape sph E Kmax S) :
    tensor3HasShape (effDownProjForward weight rbfEnv sph).1 E I S ∧
      tensor3HasShape (effDownProjForward weight rbfEnv sph).2 E S Kmax ∧
      ∀ e < E, ∀ k < Kmax, ∀ s < S,
        entry3 (effDownProjForward weight rbfEnv sph).2 e s k =
          entry3 sph e k s := by
  obtain ⟨r0, rtl, hre⟩ :=
    List.exists_cons_of_ne_nil (l := rbfEnv)
      (by intro hnil; rw [hnil] at hrbf; simp [tensor3HasShape] at hrbf; omega)
  obtain ⟨w0, wtl, hwe⟩ :=
    List.exists_cons_of_ne_nil (l := weight)
      (by intro hnil; rw [hnil] at hw; simp [tensor3HasShape] at hw; omega)
  have hr0 : r0.length = E := (hrbf.2 r0 (by rw [hre]; simp)).1
  have hw0 := hw.2 w0 (by rw [hwe]; simp)
  obtain ⟨b0, btl, hbe⟩ :=
    List.exists_cons_of_ne_nil (l := w0)
      (by intro hnil; rw [hnil] at hw0; simp at hw0; omega)
  obtain ⟨a0, atl, hae⟩ :=
    List.exists_cons_of_ne_nil (l := r0)
      (by intro hnil; rw [hnil] at hr0; simp at hr0; omega)
  have hb0 : b0.length = I := hw0.2 b0 (by rw [hbe]; simp)
  have hM0 : (matmul3 rbfEnv weight).length = S := by
    simp [matmul3, hrbf.1, hw.1]
  have hMhead : (matmul3 rbfEnv weight).headD [] = matmul2 r0 w0 := by
    rw [hre, hwe]
    rfl
  have h1 : ((matmul3 rbfEnv weight).headD []).length = E := by
    rw [hMhead]
    simp [matmul2, hr0]
  have h2 : (((matmul3 rbfEnv weight).headD []).headD []).length = I := by
    rw [hMhead, hae, hbe]
    simp [matmul2, hb0]
  refine ⟨?_, ?_, ?_⟩
  · exact permute120_shape (matmul3 rbfEnv weight) S E I hM0 h1 h2
  · exact transpose12_shape sph E Kmax S hK hsph
  · intro e he k hk s hs
    exact transpose12_entry sph E Kmax S hsph e k s he hk hs

/-- C7 witness: num_spherical = 3, num_radial = 4, emb_size_interm = 5,
num_edges = 2, k_max = 6 on zero tensors; the output shapes are (2, 5, 3)
and (2, 3, 6). -/
theorem effDownProj_output_shapes_witness :
    tensor3HasShape
        (effDownProjForward
          (List.replicate 3 (List.replicate 4 (List.replicate 5 (0 : ℚ))))
          (List.replicate 3 (List.replicate 2 (List.replicate 4 (0 : ℚ))))
          (List.replicate 2 (List.replicate 6 (List.replicate 3 (0 : ℚ))))).1
        2 5 3 ∧
      tensor3HasShape
        (effDownProjForward
          (List.replicate 3 (List.replicate 4 (List.replicate 5 (0 : ℚ))))
          (List.replicate 3 (List.replicate 2 (List.replicate 4 (0 : ℚ))))
          (List.replicate 2 (List.replicate 6 (List.replicate 3 (0 : ℚ))))).2
        2 3 6 :=
  ⟨(effDownProj_output_shapes 3 2 4 5 6 (by norm_num) (by norm_num)
      (by norm_num) (by norm_num) _ _ _ (tensor3HasShape_replicate 3 4 5 0)
      (tensor3HasShape_replicate 3 2 4 0)
      (tensor3HasShape_replicate 2 6 3 0)).1,
    (effDownProj_output_shapes 3 2 4 5 6 (by norm_num) (by norm_num)
      (by norm_num) (by norm_num) _ _ _ (tensor3HasShape_replicate 3 4 5 0)
      (tensor3HasShape_replicate 3 2 4 0)
      (tensor3HasShape_replicate 2 6 3 0)).2.1⟩

/-! ## C8: unknown activation names fail at Dense construction, never at
forward -/

/-- C8: constructing a Dense layer with an activation name whose lowercase
form is neither "swish" nor "silu" raises the NotImplementedError at
construction time; and for every Dense layer that was constructed
successfully, running forward yields a value — the forward body applies the
already-resolved activation and has no unknown-activation error path. -/
theorem dense_unknown_activation_fails_at_construction
    {inF outF : ℕ} (weight : Matrix (Fin outF) (Fin inF) ℝ) (bias : Bool) :
    (∀ s : String, pyLower s ≠ "swish" → pyLower s ≠ "silu" →
        denseInit weight bias (some s) =
          Except.error
            "NotImplementedError: Activation function not implemented for GemNet (yet).") ∧
      ∀ (activation : Option String) (m : DenseModel inF outF),
        denseInit weight bias activation = Except.ok m →
        ∀ x : Fin inF → ℝ, denseForwardRun m x = Except.ok (denseForward m x) := by
  constructor
  · intro s h1 h2
    simp [denseInit, resolveDenseActivation, h1, h2, Except.map]
  · intro activation m _ x
    rfl

/-- C8 witness: the unrecognized name "relu" fails at construction; the
successfully constructed activation-free Dense at shape (1, 1) with zero
weight runs forward to a value. -/
theorem dense_unknown_activation_witness :
    (pyLower "relu" ≠ "swish" ∧ pyLower "relu" ≠ "silu" ∧
        denseInit (0 : Matrix (Fin 1) (Fin 1) ℝ) false (some "relu") =
          Except.error
            "NotImplementedError: Activation function not implemented for GemNet (yet).") ∧
      (denseInit (0 : Matrix (Fin 1) (Fin 1) ℝ) false none =
          Except.ok ⟨0, none, DenseActivation.identity⟩ ∧
        denseForwardRun (⟨0, none, DenseActivation.identity⟩ : DenseModel 1 1)
            (fun _ => 1) =
          Except.ok
            (denseForward (⟨0, none, DenseActivation.identity⟩ : DenseModel 1 1)
              (fun _ => 1))) :=
  ⟨⟨by decide, by decide,
      (dense_unknown_activation_fails_at_construction
          (0 : Matrix (Fin 1) (Fin 1) ℝ) false).1 "relu" (by decide) (by decide)⟩,
    ⟨rfl,
      (dense_unknown_activation_fails_at_construction
          (0 : Matrix (Fin 1) (Fin 1) ℝ) false).2 none
        ⟨0, none, DenseActivation.identity⟩ rfl (fun _ => 1)⟩⟩

/-! ## C1: the context defaults of CrossAttention hit the unbound name
isfunction -/

/-- C1: contrary to the claim, omitting the optional context arguments does
not fall back to the query side: because `default` evaluates the unbound name
`isfunction` on its None branch, constructing CrossAttention without
context_dim raises NameError for every choice of the other arguments, and
forward without a context raises the same NameError for every input; with the
context passed explicitly (context_dim = query_dim, context = x) both
succeed. -/
theorem crossAttention_omitted_context_raises_nameerror :
    (∀ (queryDim heads dimHead : ℕ) (dropout : ℝ),
        crossAttentionInit queryDim none heads dimHead dropout =
          Except.error nameErrorIsfunction) ∧
      (crossAttentionInit 4 (some 4) 8 64 0).isOk = true ∧
      (∀ (cfg : CrossAttentionCfg) (W : CrossAttentionWeights) (maxNeg : ℝ)
          (x : List (List ℝ)) (mask : Option (List Bool)),
        crossAttentionForward cfg W maxNeg x none mask =
          Except.error nameErrorIsfunction) ∧
      ∀ (cfg : CrossAttentionCfg) (W : CrossAttentionWeights) (maxNeg : ℝ)
          (x ctx : List (List ℝ)) (mask : Option (List Bool)),
        (crossAttentionForward cfg W maxNeg x (some ctx) mask).isOk = true := by
  refine ⟨fun _ _ _ _ => rfl, rfl, fun _ _ _ _ _ => rfl, fun _ _ _ _ _ _ => rfl⟩

/-! ## C2: the encoder layer feeds nhead into the context_dim slot -/

/-- C2: CrossAttentionTransformerEncoderLayer.__init__ constructs its
CrossAttention with nhead as the second positional argument — the context_dim
parameter — so the constructed attention module records key and value
projections whose input dimension is nhead (and is therefore not d_model
whenever nhead differs from d_model), while its query projection keeps
d_model. -/
theorem encoderLayer_attention_context_dim_is_nhead :
    ∀ (dModel nhead : ℕ) (dropout : ℝ),
      ∃ cfg : CrossAttentionCfg,
        encoderAttn dModel nhead dropout = Except.ok cfg ∧
          cfg.contextDim = nhead ∧ cfg.toKIn = nhead ∧ cfg.toVIn = nhead ∧
          cfg.toQIn = dModel ∧ (nhead ≠ dModel → cfg.toKIn ≠ dModel) := by
  intro dModel nhead dropout
  refine ⟨_, rfl, rfl, rfl, rfl, rfl, fun h => h⟩

/-! ## C10: the encoder layer constructor always hits the unbound name
_get_activation_fn -/

/-- C10: for every choice of constructor arguments (the torch base-class
constructor being external and modelled as succeeding), constructing a
CrossAttentionTransformerEncoderLayer raises the NameError for
`_get_activation_fn`, which is neither defined nor imported in the module;
construction therefore never produces a layer, and no forward pass of this
encoder layer is reachable. -/
theorem encoderLayerInit_always_raises_nameerror :
    ∀ (dModel nhead dimFeedforward : ℕ) (dropout : ℝ) (activation : String),
      crossAttentionTransformerEncoderLayerInit dModel nhead dimFeedforward
          dropout activation =
        Except.error nameErrorGetActivationFn := by
  intro dModel nhead dimFeedforward dropout activation
  rfl
